import Mathlib

/-!
Shallow embedding of the resilient-call layer of the baseball_simulator
repository (`data-fetcher/network_resilience.py`): the `CircuitBreaker`
state machine, the token-bucket `RateLimiter`, and the composition of the
tenacity `@retry` decorator with the breaker used by
`NetworkResilientClient._resilient_request` / `_make_request`.

Timestamps (`time.time()` / `datetime.utcnow()`) are embedded as rationals;
token balances (Python floats) as rationals; Python exceptions as the
inductive `Exc`, with the breaker's `expected_exception` tuple and
tenacity's `retry_if_exception_type` tuple embedded as boolean predicates
on `Exc`.
-/

set_option autoImplicit false

namespace NetworkResilience

/-- Exceptions that appear in the resilient-call layer.
`requestError`/`httpStatusError` embed `httpx.RequestError` and
`httpx.HTTPStatusError` (the latter with its response status code);
`retryErr` embeds `tenacity.RetryError` wrapping the final attempt's
exception; `other` embeds any unrelated exception type. -/
inductive Exc where
  | requestError (tag : Nat)
  | httpStatusError (code : Nat)
  | retryErr (e : Exc)
  | other (tag : Nat)
deriving DecidableEq, Repr

/-- The tuple `(httpx.RequestError, httpx.HTTPStatusError)` used both as
`retry_if_exception_type(...)` in `_make_request` and as the
`expected_exception` of the `http_client`/`mlb_api` breaker configs. -/
def httpRetryable : Exc → Bool
  | .requestError _ => true
  | .httpStatusError _ => true
  | _ => false

/-- `CircuitState` enum from `network_resilience.py`. -/
inductive CircuitState where
  | CLOSED
  | OPEN
  | HALF_OPEN
deriving DecidableEq, Repr

/-- `CircuitBreakerConfig` dataclass: `expected` embeds the
`expected_exception` type tuple as a predicate. -/
structure CircuitBreakerConfig where
  failure_threshold : Nat
  recovery_timeout : ℚ
  expected : Exc → Bool
  name : String

/-- One `CircuitBreaker` instance: its `state`, the fields of its
`CircuitBreakerStats`, plus the internal `_failure_count` and
`_last_failure_time` (the `time.time()` float used by
`_should_attempt_reset`; `last_failure_time` is the separate
`stats.last_failure_time` datetime shown in the rejection message). -/
structure Breaker where
  state : CircuitState
  total_requests : Nat
  successful_requests : Nat
  failed_requests : Nat
  circuit_opens : Nat
  last_failure_time : Option ℚ
  last_success_time : Option ℚ
  current_failure_count : Nat
  failure_count : Nat
  last_failure_time_monotonic : Option ℚ
deriving DecidableEq, Repr

/-- `CircuitBreaker.__init__`: state CLOSED, fresh stats, no recorded
failure, zero failure count. -/
def initBreaker : Breaker where
  state := .CLOSED
  total_requests := 0
  successful_requests := 0
  failed_requests := 0
  circuit_opens := 0
  last_failure_time := none
  last_success_time := none
  current_failure_count := 0
  failure_count := 0
  last_failure_time_monotonic := none

/-- `CircuitBreaker._should_attempt_reset`. -/
def shouldAttemptReset (cfg : CircuitBreakerConfig) (b : Breaker) (now : ℚ) : Bool :=
  match b.last_failure_time_monotonic with
  | none => true
  | some t => decide (cfg.recovery_timeout ≤ now - t)

/-- `CircuitBreaker._on_success`. -/
def onSuccess (b : Breaker) (now : ℚ) : Breaker :=
  let b := { b with
    successful_requests := b.successful_requests + 1
    last_success_time := some now
    failure_count := 0
    current_failure_count := 0 }
  if b.state = .HALF_OPEN then { b with state := .CLOSED } else b

/-- `CircuitBreaker._on_failure`. -/
def onFailure (cfg : CircuitBreakerConfig) (b : Breaker) (now : ℚ) : Breaker :=
  let fc := b.failure_count + 1
  let b := { b with
    failed_requests := b.failed_requests + 1
    last_failure_time := some now
    last_failure_time_monotonic := some now
    failure_count := fc
    current_failure_count := fc }
  if cfg.failure_threshold ≤ fc then
    { b with state := .OPEN, circuit_opens := b.circuit_opens + 1 }
  else b

/-- Result of the pre-invocation phase of `CircuitBreaker.call`: either the
wrapped operation is about to be awaited, or a `CircuitBreakerError`
carrying the breaker name and `stats.last_failure_time` is raised. -/
inductive BeginResult where
  | proceed
  | rejected (name : String) (lastFailure : Option ℚ)
deriving DecidableEq, Repr

/-- The part of `CircuitBreaker.call` that runs before `await func(...)`:
increment `total_requests`; if OPEN either transition to HALF_OPEN (when
`_should_attempt_reset()`) or raise `CircuitBreakerError`. Everything here
executes without a suspension point, so concurrent tasks observe it
atomically. -/
def callBegin (cfg : CircuitBreakerConfig) (b : Breaker) (now : ℚ) :
    Breaker × BeginResult :=
  let b := { b with total_requests := b.total_requests + 1 }
  if b.state = .OPEN then
    if shouldAttemptReset cfg b now then
      ({ b with state := .HALF_OPEN }, .proceed)
    else
      (b, .rejected cfg.name b.last_failure_time)
  else
    (b, .proceed)

/-- What `CircuitBreaker.call` raises or returns. -/
inductive CallResult where
  | returned
  | raised (e : Exc)
  | rejected (name : String) (lastFailure : Option ℚ)
deriving DecidableEq, Repr

/-- The part of `CircuitBreaker.call` after the awaited operation resolves:
`none` is a normal return (`_on_success`), `some e` a raised exception,
handled by `_on_failure` exactly when `e` matches `expected_exception`,
and re-raised unchanged either way. -/
def callEnd (cfg : CircuitBreakerConfig) (b : Breaker) (now : ℚ)
    (outcome : Option Exc) : Breaker × CallResult :=
  match outcome with
  | none => (onSuccess b now, .returned)
  | some e =>
    if cfg.expected e then (onFailure cfg b now, .raised e)
    else (b, .raised e)

/-- `CircuitBreaker.call` run to completion on an operation whose outcome
is `outcome` (`none` = returns, `some e` = raises `e`); the operation is
invoked exactly when `callBegin` yields `proceed`. -/
def call (cfg : CircuitBreakerConfig) (b : Breaker) (now : ℚ)
    (outcome : Option Exc) : Breaker × CallResult :=
  match callBegin cfg b now with
  | (b1, .proceed) => callEnd cfg b1 now outcome
  | (b1, .rejected n lf) => (b1, .rejected n lf)

/-- `CircuitBreaker.reset`. -/
def breakerReset (b : Breaker) : Breaker :=
  { b with state := .CLOSED, failure_count := 0, current_failure_count := 0 }

/-- An operation applied to a shared breaker: a completed `call` at some
time with some operation outcome, or a manual `reset` (`get_stats` does not
change the breaker). -/
inductive BreakerOp where
  | call (now : ℚ) (outcome : Option Exc)
  | reset
deriving Repr

/-- Apply one operation to the breaker. -/
def applyOp (cfg : CircuitBreakerConfig) (b : Breaker) : BreakerOp → Breaker
  | .call now outcome => (call cfg b now outcome).1
  | .reset => breakerReset b

/-- Run a sequence of operations from a starting breaker. -/
def applyOps (cfg : CircuitBreakerConfig) (b : Breaker) (ops : List BreakerOp) :
    Breaker :=
  ops.foldl (applyOp cfg) b

/-- Final breaker after a sequence of completed calls (time, outcome). -/
def callRunB (cfg : CircuitBreakerConfig) (b : Breaker)
    (cs : List (ℚ × Option Exc)) : Breaker :=
  cs.foldl (fun b c => (call cfg b c.1 c.2).1) b

/-- The results observed by a sequence of completed calls. -/
def callRunResults (cfg : CircuitBreakerConfig) (b : Breaker) :
    List (ℚ × Option Exc) → List CallResult
  | [] => []
  | c :: cs =>
    (call cfg b c.1 c.2).2 :: callRunResults cfg (call cfg b c.1 c.2).1 cs

/-- Outcome of a retry-wrapped operation: normal return or a raised
exception. -/
inductive RetryOutcome where
  | ok
  | err (e : Exc)
deriving DecidableEq, Repr

/-- Retry loop of tenacity's `@retry(stop=stop_after_attempt(maxAttempts),
retry=retry_if_exception_type(...))` decorator (third-party library used by
`_make_request`), with its default `reraise=False`: attempt `i` (0-based,
outcome `attempts i`, `none` = success, `some e` = raises `e`); a success
returns; an exception not matching the retryable tuple re-raises unchanged
at once; a matching exception either consumes one unit of `fuel` and
retries, or, when the attempt budget is exhausted, raises
`tenacity.RetryError` wrapping the final attempt's exception. Returns the
outcome and the number of attempts actually invoked. -/
def tenacityGo (retryable : Exc → Bool) (attempts : Nat → Option Exc) :
    Nat → Nat → RetryOutcome × Nat
  | i, 0 =>
    match attempts i with
    | none => (.ok, i + 1)
    | some e =>
      if retryable e then (.err (.retryErr e), i + 1) else (.err e, i + 1)
  | i, fuel + 1 =>
    match attempts i with
    | none => (.ok, i + 1)
    | some e =>
      if retryable e then tenacityGo retryable attempts (i + 1) fuel
      else (.err e, i + 1)

/-- The whole tenacity-decorated operation: at most `maxAttempts` tries
(`stop_after_attempt(maxAttempts)` stops once the attempt number reaches
`maxAttempts`). -/
def tenacityRetry (retryable : Exc → Bool) (maxAttempts : Nat)
    (attempts : Nat → Option Exc) : RetryOutcome × Nat :=
  tenacityGo retryable attempts 0 (maxAttempts - 1)

/-- `NetworkResilientClient._resilient_request`'s core:
`circuit_breaker.call(self._make_request, ...)` where `_make_request` is
the tenacity-decorated raw request. The breaker invokes the retry-wrapped
operation only when not rejected; the third component is the number of raw
attempts actually made (0 when the breaker rejected the call). -/
def resilientRequest (cfg : CircuitBreakerConfig) (b : Breaker) (now : ℚ)
    (retryable : Exc → Bool) (maxAttempts : Nat)
    (attempts : Nat → Option Exc) : Breaker × CallResult × Nat :=
  match callBegin cfg b now with
  | (b1, .proceed) =>
    let r := tenacityRetry retryable maxAttempts attempts
    let outcome : Option Exc :=
      match r.1 with
      | .ok => none
      | .err e => some e
    let e2 := callEnd cfg b1 now outcome
    (e2.1, e2.2, r.2)
  | (b1, .rejected n lf) => (b1, .rejected n lf, 0)

/-- `RateLimiter` instance state: `max_requests` and `time_window` are the
Python int constructor arguments, `tokens` the float bucket balance,
`last_refill` the `time.time()` of the last refill. -/
structure RateLimiter where
  max_requests : ℤ
  time_window : ℤ
  tokens : ℚ
  last_refill : ℚ
deriving DecidableEq, Repr

/-- `RateLimiter.__init__` at construction time `now`: a full bucket. -/
def RateLimiter.init (max_requests time_window : ℤ) (now : ℚ) : RateLimiter :=
  ⟨max_requests, time_window, (max_requests : ℚ), now⟩

/-- `RateLimiter.acquire` at time `now` (the body of the critical section;
the surrounding `asyncio.Lock` serializes whole executions of it). -/
def RateLimiter.acquire (s : RateLimiter) (now : ℚ) : RateLimiter × Bool :=
  let elapsed := now - s.last_refill
  let tokens_to_add := elapsed * ((s.max_requests : ℚ) / (s.time_window : ℚ))
  let tokens := min ((s.max_requests : ℚ)) (s.tokens + tokens_to_add)
  let s' := { s with tokens := tokens, last_refill := now }
  if 1 ≤ tokens then ({ s' with tokens := tokens - 1 }, true) else (s', false)

/-- Spec-side refill, written from the spec's words: "`elapsed = now -
lastRefillTimestamp`; `tokens = min(maxRequests, tokens + elapsed *
maxRequests / windowSeconds)`; `lastRefillTimestamp = now`". -/
def refillSpec (s : RateLimiter) (now : ℚ) : RateLimiter :=
  { s with
    tokens := min ((s.max_requests : ℚ))
      (s.tokens + (now - s.last_refill) * (s.max_requests : ℚ) / (s.time_window : ℚ))
    last_refill := now }

/-- Spec-side `acquire`, written from the spec's words: refill first, then
"returns `true` and decrements tokens if `tokens ≥ 1` after refill, else
returns `false`" with tokens not decremented. -/
def acquireSpec (s : RateLimiter) (now : ℚ) : RateLimiter × Bool :=
  let s' := refillSpec s now
  if 1 ≤ s'.tokens then ({ s' with tokens := s'.tokens - 1 }, true)
  else (s', false)

/-- Run of consecutive tracked failures delivered through `call`: each
element is the time of the call and the (tracked) exception it raises. -/
def applyTrackedRun (cfg : CircuitBreakerConfig) (b : Breaker)
    (fs : List (ℚ × Exc)) : Breaker :=
  fs.foldl (fun b p => (call cfg b p.1 (some p.2)).1) b

/-- The invariant `successfulRequests + failedRequests ≤ totalRequests`. -/
abbrev statsInv (b : Breaker) : Prop :=
  b.successful_requests + b.failed_requests ≤ b.total_requests

/-- One event on the shared breaker at the granularity the program
actually runs: `CircuitBreaker.call` suspends exactly once, at
`await func(...)`, so under asyncio's cooperative scheduling the atomic
steps other tasks can observe are the pre-await phase (`callBegin`) and
the post-await phase (`callEnd`). `beginEv now` is a task entering
`call`; `endEv now outcome` is a task whose awaited operation has just
resolved running the success/failure handling. An `endEv` is only
meaningful for a task whose earlier `beginEv` returned `proceed`; the
traces below respect this. -/
inductive BreakerEv where
  | beginEv (now : ℚ)
  | endEv (now : ℚ) (outcome : Option Exc)
deriving Repr

/-- Apply one begin/end event to the shared breaker. -/
def applyEv (cfg : CircuitBreakerConfig) (b : Breaker) : BreakerEv → Breaker
  | .beginEv now => (callBegin cfg b now).1
  | .endEv now o => (callEnd cfg b now o).1

/-- Run an interleaved sequence of begin/end events from a starting
breaker. -/
def applyEvs (cfg : CircuitBreakerConfig) (b : Breaker)
    (evs : List BreakerEv) : Breaker :=
  evs.foldl (applyEv cfg) b

end NetworkResilience

namespace NetworkResilience

/-- A tracked failure delivered to a CLOSED breaker increments the
consecutive-failure count and trips the breaker exactly when the new count
reaches the threshold. -/
theorem call_closed_tracked (cfg : CircuitBreakerConfig) (b : Breaker)
    (now : ℚ) (e : Exc) (hb : b.state = .CLOSED) (he : cfg.expected e = true) :
    (call cfg b now (some e)).1.failure_count = b.failure_count + 1 ∧
    (call cfg b now (some e)).1.state =
      (if cfg.failure_threshold ≤ b.failure_count + 1 then
        CircuitState.OPEN else CircuitState.CLOSED) := by
  have h1 : callBegin cfg b now =
      ({ b with total_requests := b.total_requests + 1 }, .proceed) := by
    simp [callBegin, hb]
  simp only [call, h1, callEnd, he, if_true, onFailure]
  split <;> simp_all

/-- Auxiliary induction for C1: starting CLOSED, a run of tracked failures
keeps the breaker CLOSED while the running count stays below the
threshold, and ends OPEN exactly when the count reaches it. -/
theorem trackedRun_closed_aux (cfg : CircuitBreakerConfig)
    (fs : List (ℚ × Exc)) :
    ∀ b : Breaker, b.state = .CLOSED →
      (∀ p ∈ fs, cfg.expected p.2 = true) →
      (b.failure_count + fs.length < cfg.failure_threshold →
        (applyTrackedRun cfg b fs).state = .CLOSED ∧
        (applyTrackedRun cfg b fs).failure_count = b.failure_count + fs.length) ∧
      (fs ≠ [] → b.failure_count + fs.length = cfg.failure_threshold →
        (applyTrackedRun cfg b fs).state = .OPEN) := by
  induction fs with
  | nil =>
    intro b hb _
    exact ⟨fun _ => ⟨hb, rfl⟩, fun h _ => absurd rfl h⟩
  | cons p fs ih =>
    intro b hb htr
    have hp : cfg.expected p.2 = true := htr p (List.mem_cons_self p fs)
    have htr' : ∀ q ∈ fs, cfg.expected q.2 = true :=
      fun q hq => htr q (List.mem_cons_of_mem p hq)
    have hstep := call_closed_tracked cfg b p.1 p.2 hb hp
    constructor
    · intro hlt
      have hfs : b.failure_count + 1 + fs.length < cfg.failure_threshold := by
        simp only [List.length_cons] at hlt; omega
      have hlt1 : ¬ cfg.failure_threshold ≤ b.failure_count + 1 := by omega
      have hstate : (call cfg b p.1 (some p.2)).1.state = .CLOSED := by
        rw [hstep.2, if_neg hlt1]
      have := (ih (call cfg b p.1 (some p.2)).1 hstate htr').1 (by
        rw [hstep.1]; exact hfs)
      refine ⟨?_, ?_⟩
      · simpa [applyTrackedRun] using this.1
      · have h2 := this.2
        rw [hstep.1] at h2
        simp only [applyTrackedRun, List.foldl_cons] at h2 ⊢
        simp only [List.length_cons]
        omega
    · intro _ heq
      by_cases hfs : fs = []
      · subst hfs
        simp only [List.length_cons, List.length_nil] at heq
        have : cfg.failure_threshold ≤ b.failure_count + 1 := by omega
        simp only [applyTrackedRun, List.foldl_cons, List.foldl_nil]
        rw [hstep.2, if_pos this]
      · have hlen : 1 ≤ fs.length := by
          cases fs with
          | nil => exact absurd rfl hfs
          | cons _ _ => simp
        have hlt1 : ¬ cfg.failure_threshold ≤ b.failure_count + 1 := by
          simp only [List.length_cons] at heq; omega
        have hstate : (call cfg b p.1 (some p.2)).1.state = .CLOSED := by
          rw [hstep.2, if_neg hlt1]
        have := (ih (call cfg b p.1 (some p.2)).1 hstate htr').2 hfs (by
          rw [hstep.1]
          simp only [List.length_cons] at heq
          omega)
        simpa [applyTrackedRun] using this

/-- Claim C1: with `failureThreshold = N ≥ 1`, starting CLOSED with a zero
consecutive-failure count, any run of fewer than N consecutive tracked
failures through `call` leaves the state CLOSED (with the count equal to
the number of failures), and a run of exactly N such failures leaves the
state OPEN: the N-th failure trips the breaker. -/
theorem breaker_trips_on_Nth_failure (cfg : CircuitBreakerConfig) (N : Nat)
    (hN : cfg.failure_threshold = N) (h1 : 1 ≤ N) (fs : List (ℚ × Exc))
    (htr : ∀ p ∈ fs, cfg.expected p.2 = true) :
    (fs.length < N →
      (applyTrackedRun cfg initBreaker fs).state = .CLOSED ∧
      (applyTrackedRun cfg initBreaker fs).failure_count = fs.length) ∧
    (fs.length = N → (applyTrackedRun cfg initBreaker fs).state = .OPEN) := by
  have haux := trackedRun_closed_aux cfg fs initBreaker rfl htr
  constructor
  · intro hlt
    have := haux.1 (by simpa [initBreaker, hN] using hlt)
    exact ⟨this.1, by simpa [initBreaker] using this.2⟩
  · intro hlen
    refine haux.2 ?_ (by simpa [initBreaker, hN] using hlen)
    intro hnil
    subst hnil
    simp at hlen
    omega

/-- Concrete instantiation of C1: threshold 2, two consecutive tracked
failures, breaker ends OPEN. -/
theorem breaker_trips_on_Nth_failure_witness :
    (applyTrackedRun ⟨2, 60, httpRetryable, "mlb_api"⟩ initBreaker
      [(0, .requestError 0), (1, .requestError 1)]).state = .OPEN :=
  (breaker_trips_on_Nth_failure ⟨2, 60, httpRetryable, "mlb_api"⟩ 2 rfl
    (by decide) [(0, .requestError 0), (1, .requestError 1)]
    (by intro p hp; fin_cases hp <;> rfl)).2 rfl

/-- A call arriving while the breaker is OPEN, before `recoveryTimeout` has
elapsed since the recorded `_last_failure_time`, is rejected: only
`total_requests` changes, and the raised `CircuitBreakerError` carries the
breaker name and `stats.last_failure_time`. -/
theorem call_open_rejected (cfg : CircuitBreakerConfig) (b : Breaker)
    (now : ℚ) (o : Option Exc) (t : ℚ) (hb : b.state = .OPEN)
    (ht : b.last_failure_time_monotonic = some t)
    (hlt : now - t < cfg.recovery_timeout) :
    call cfg b now o =
      ({ b with total_requests := b.total_requests + 1 },
        .rejected cfg.name b.last_failure_time) := by
  have hreset : ∀ b' : Breaker, b'.last_failure_time_monotonic = some t →
      shouldAttemptReset cfg b' now = false := by
    intro b' hb'
    simp [shouldAttemptReset, hb', not_le.mpr hlt]
  simp [call, callBegin, hb, ht, hreset]

/-- Claim C2: while OPEN with `now - lastFailureTime < recoveryTimeout`
holding at every call, any sequence of calls — whatever each wrapped
operation would have done — is rejected with a `CircuitBreakerError`
carrying the dependency name and the last-failure timestamp; no operation
outcome is ever recorded (the breaker is unchanged except that
`total_requests` counts the rejected calls), and the state remains OPEN. -/
theorem open_rejects_before_timeout (cfg : CircuitBreakerConfig)
    (b : Breaker) (t : ℚ) (hb : b.state = .OPEN)
    (ht : b.last_failure_time_monotonic = some t)
    (cs : List (ℚ × Option Exc))
    (hcs : ∀ c ∈ cs, c.1 - t < cfg.recovery_timeout) :
    callRunB cfg b cs =
      { b with total_requests := b.total_requests + cs.length } ∧
    callRunResults cfg b cs =
      cs.map (fun _ => .rejected cfg.name b.last_failure_time) := by
  induction cs generalizing b with
  | nil =>
    constructor
    · simp only [callRunB, List.foldl_nil, List.length_nil, Nat.add_zero]
    · simp [callRunResults]
  | cons c cs ih =>
    have hc : c.1 - t < cfg.recovery_timeout :=
      hcs c (List.mem_cons_self c cs)
    have hcs' : ∀ d ∈ cs, d.1 - t < cfg.recovery_timeout :=
      fun d hd => hcs d (List.mem_cons_of_mem c hd)
    have hstep := call_open_rejected cfg b c.1 c.2 t hb ht hc
    have ih' := ih { b with total_requests := b.total_requests + 1 }
      hb ht hcs'
    constructor
    · have h1 := ih'.1
      simp only [callRunB, List.foldl_cons, hstep, List.length_cons] at h1 ⊢
      rw [h1]
      congr 1
      omega
    · have h2 := ih'.2
      simp only [callRunResults, hstep, List.map_cons] at h2 ⊢
      rw [h2]

/-- Concrete instantiation of C2: an OPEN breaker with last failure at
t = 100 and a 60-second recovery timeout rejects three calls at t = 110,
120, 130 (one of which would even have succeeded), leaving everything but
`total_requests` unchanged. -/
theorem open_rejects_before_timeout_witness :
    callRunB ⟨3, 60, httpRetryable, "mlb_api"⟩
        ⟨.OPEN, 5, 2, 3, 1, some 100, none, 3, 3, some 100⟩
        [(110, some (.requestError 0)), (120, none), (130, some (.other 1))] =
      ⟨.OPEN, 8, 2, 3, 1, some 100, none, 3, 3, some 100⟩ ∧
    callRunResults ⟨3, 60, httpRetryable, "mlb_api"⟩
        ⟨.OPEN, 5, 2, 3, 1, some 100, none, 3, 3, some 100⟩
        [(110, some (.requestError 0)), (120, none), (130, some (.other 1))] =
      [.rejected "mlb_api" (some 100), .rejected "mlb_api" (some 100),
        .rejected "mlb_api" (some 100)] :=
  open_rejects_before_timeout ⟨3, 60, httpRetryable, "mlb_api"⟩
    ⟨.OPEN, 5, 2, 3, 1, some 100, none, 3, 3, some 100⟩ 100 rfl rfl
    [(110, some (.requestError 0)), (120, none), (130, some (.other 1))]
    (by intro c hc; fin_cases hc <;> norm_num)

/-- Counterexample to claim C3: threshold 1, recovery timeout 5. One
tracked failure at t = 0 opens the breaker; the probe call at t = 10 is
let through (`proceed`), leaving the breaker HALF_OPEN while the probe is
in flight; a second call arriving at t = 10, before the probe resolves, is
ALSO let through (`proceed`): `call` only rejects in state OPEN, so the
second caller does invoke its operation, contradicting "every concurrently
arriving second call is rejected with Open semantics and never invokes its
operation". -/
theorem second_call_during_probe_proceeds_counterexample :
    (callBegin ⟨1, 5, httpRetryable, "mlb_api"⟩
        (applyOps ⟨1, 5, httpRetryable, "mlb_api"⟩ initBreaker
          [.call 0 (some (.requestError 0))]) 10).2 = .proceed ∧
    ((callBegin ⟨1, 5, httpRetryable, "mlb_api"⟩
        (applyOps ⟨1, 5, httpRetryable, "mlb_api"⟩ initBreaker
          [.call 0 (some (.requestError 0))]) 10).1).state = .HALF_OPEN ∧
    (callBegin ⟨1, 5, httpRetryable, "mlb_api"⟩
        ((callBegin ⟨1, 5, httpRetryable, "mlb_api"⟩
          (applyOps ⟨1, 5, httpRetryable, "mlb_api"⟩ initBreaker
            [.call 0 (some (.requestError 0))]) 10).1) 10).2 = .proceed := by
  refine ⟨?_, ?_, ?_⟩ <;>
    simp +decide [applyOps, applyOp, call, callBegin, callEnd, onFailure,
      shouldAttemptReset, initBreaker, httpRetryable]

/-- Claim C3 amended: once `recoveryTimeout` has elapsed since the
recorded last failure, a call on an OPEN breaker is allowed through and
moves the state to HALF_OPEN before the probe operation runs; but the
breaker does not enforce single-probing: any further call that arrives
while the state is HALF_OPEN (the probe still in flight) is also allowed
through and invokes its operation — only calls that find the state OPEN
before the timeout are rejected. -/
theorem probe_allowed_but_half_open_not_rejecting
    (cfg : CircuitBreakerConfig) (b b' : Breaker) (t now now' : ℚ)
    (hb : b.state = .OPEN) (ht : b.last_failure_time_monotonic = some t)
    (helapsed : cfg.recovery_timeout ≤ now - t)
    (hb' : b'.state = .HALF_OPEN) :
    callBegin cfg b now =
      ({ b with
          total_requests := b.total_requests + 1
          state := .HALF_OPEN }, .proceed) ∧
    (callBegin cfg b' now').2 = .proceed := by
  constructor
  · have hreset : ∀ b1 : Breaker, b1.last_failure_time_monotonic = some t →
        shouldAttemptReset cfg b1 now = true := by
      intro b1 hb1
      simp [shouldAttemptReset, hb1, helapsed]
    simp [callBegin, hb, ht, hreset]
  · simp [callBegin, hb']

/-- Concrete instantiation of the amended C3: an OPEN breaker whose
timeout has elapsed lets the probe through into HALF_OPEN, and a breaker
already HALF_OPEN lets a second call through as well. -/
theorem probe_allowed_but_half_open_not_rejecting_witness :
    callBegin ⟨3, 5, httpRetryable, "mlb_api"⟩
        ⟨.OPEN, 3, 0, 3, 1, some 0, none, 3, 3, some 0⟩ 10 =
      (⟨.HALF_OPEN, 4, 0, 3, 1, some 0, none, 3, 3, some 0⟩, .proceed) ∧
    (callBegin ⟨3, 5, httpRetryable, "mlb_api"⟩
        ⟨.HALF_OPEN, 4, 0, 3, 1, some 0, none, 3, 3, some 0⟩ 10).2 =
      .proceed :=
  probe_allowed_but_half_open_not_rejecting
    ⟨3, 5, httpRetryable, "mlb_api"⟩
    ⟨.OPEN, 3, 0, 3, 1, some 0, none, 3, 3, some 0⟩
    ⟨.HALF_OPEN, 4, 0, 3, 1, some 0, none, 3, 3, some 0⟩
    0 10 10 rfl rfl (by norm_num) rfl

/-- A call on a breaker that is not OPEN skips the open-check and goes
straight to the operation. -/
theorem call_eq_callEnd_of_not_open (cfg : CircuitBreakerConfig)
    (b : Breaker) (now : ℚ) (o : Option Exc) (hb : b.state ≠ .OPEN) :
    call cfg b now o =
      callEnd cfg { b with total_requests := b.total_requests + 1 } now o := by
  simp [call, callBegin, hb]

/-- `_should_attempt_reset` reads only `_last_failure_time`. -/
theorem shouldAttemptReset_eq (cfg : CircuitBreakerConfig) (b : Breaker)
    (now : ℚ) :
    shouldAttemptReset cfg b now =
      (match b.last_failure_time_monotonic with
        | none => true
        | some t => decide (cfg.recovery_timeout ≤ now - t)) := rfl

/-- A call on an OPEN breaker whose reset check passes transitions to
HALF_OPEN and runs the operation. -/
theorem call_eq_of_open_reset (cfg : CircuitBreakerConfig) (b : Breaker)
    (now : ℚ) (o : Option Exc) (hb : b.state = .OPEN)
    (hr : shouldAttemptReset cfg b now = true) :
    call cfg b now o =
      callEnd cfg
        { b with
            total_requests := b.total_requests + 1
            state := .HALF_OPEN } now o := by
  rw [shouldAttemptReset_eq] at hr
  simp [call, callBegin, hb, shouldAttemptReset_eq, hr]

/-- A call on an OPEN breaker whose reset check fails is rejected. -/
theorem call_eq_of_open_noreset (cfg : CircuitBreakerConfig) (b : Breaker)
    (now : ℚ) (o : Option Exc) (hb : b.state = .OPEN)
    (hr : shouldAttemptReset cfg b now = false) :
    call cfg b now o =
      ({ b with total_requests := b.total_requests + 1 },
        .rejected cfg.name b.last_failure_time) := by
  rw [shouldAttemptReset_eq] at hr
  simp [call, callBegin, hb, shouldAttemptReset_eq, hr]

/-- Counterexample to claim C6, at the begin/end event granularity of
`CircuitBreaker.call` (its single suspension point is `await func(...)`,
so concurrent tasks sharing one breaker interleave exactly these phases):
threshold 2, recovery timeout 5. A straggler call begins at t = 0 while
CLOSED; two other calls fail at t = 1 and t = 2, tripping the breaker to
OPEN; the straggler's operation then succeeds at t = 3, so `_on_success`
zeroes the consecutive-failure count while the state stays OPEN; the
probe admitted at t = 10 enters HALF_OPEN with count 0, and its tracked
failure at t = 11 increments the count only to 1 < 2: the state stays
HALF_OPEN — a single probe failure is NOT always sufficient to re-open. -/
theorem straggler_success_keeps_half_open_counterexample :
    (callBegin ⟨2, 5, httpRetryable, "mlb_api"⟩ initBreaker 0).2
      = .proceed ∧
    (applyEvs ⟨2, 5, httpRetryable, "mlb_api"⟩ initBreaker
      [.beginEv 0, .beginEv 1, .endEv 1 (some (.requestError 0)),
        .beginEv 2, .endEv 2 (some (.requestError 1)),
        .endEv 3 none]).state = .OPEN ∧
    (applyEvs ⟨2, 5, httpRetryable, "mlb_api"⟩ initBreaker
      [.beginEv 0, .beginEv 1, .endEv 1 (some (.requestError 0)),
        .beginEv 2, .endEv 2 (some (.requestError 1)),
        .endEv 3 none]).failure_count = 0 ∧
    (callBegin ⟨2, 5, httpRetryable, "mlb_api"⟩
      (applyEvs ⟨2, 5, httpRetryable, "mlb_api"⟩ initBreaker
        [.beginEv 0, .beginEv 1, .endEv 1 (some (.requestError 0)),
          .beginEv 2, .endEv 2 (some (.requestError 1)),
          .endEv 3 none]) 10).2 = .proceed ∧
    (applyEvs ⟨2, 5, httpRetryable, "mlb_api"⟩ initBreaker
      [.beginEv 0, .beginEv 1, .endEv 1 (some (.requestError 0)),
        .beginEv 2, .endEv 2 (some (.requestError 1)),
        .endEv 3 none, .beginEv 10]).state = .HALF_OPEN ∧
    (applyEvs ⟨2, 5, httpRetryable, "mlb_api"⟩ initBreaker
      [.beginEv 0, .beginEv 1, .endEv 1 (some (.requestError 0)),
        .beginEv 2, .endEv 2 (some (.requestError 1)),
        .endEv 3 none, .beginEv 10,
        .endEv 11 (some (.requestError 2))]).state = .HALF_OPEN ∧
    ¬ ((applyEvs ⟨2, 5, httpRetryable, "mlb_api"⟩ initBreaker
      [.beginEv 0, .beginEv 1, .endEv 1 (some (.requestError 0)),
        .beginEv 2, .endEv 2 (some (.requestError 1)),
        .endEv 3 none, .beginEv 10,
        .endEv 11 (some (.requestError 2))]).state = .OPEN) := by
  refine ⟨?_, ?_, ?_, ?_, ?_, ?_, ?_⟩ <;>
    (simp +decide [applyEvs, applyEv, callBegin, callEnd, onFailure,
      onSuccess, shouldAttemptReset, initBreaker, httpRetryable] <;>
      norm_num) <;>
    decide

/-- Claim C6 amended: for every breaker in HALF_OPEN — however reached,
including concurrency-reachable states whose consecutive-failure count a
straggler success zeroed while the breaker was OPEN — a successful probe
sets the state to CLOSED and zeroes both consecutive-failure counters; a
tracked probe failure updates both last-failure timestamps, increments
the count, and sets the state back to OPEN exactly when the incremented
count reaches the threshold: a single probe failure suffices to re-open
only when the count was not reset since the prior trip. -/
theorem half_open_probe_outcome (cfg : CircuitBreakerConfig) (b : Breaker)
    (now : ℚ) (e : Exc) (hb : b.state = .HALF_OPEN)
    (he : cfg.expected e = true) :
    ((call cfg b now none).1.state = .CLOSED ∧
      (call cfg b now none).1.failure_count = 0 ∧
      (call cfg b now none).1.current_failure_count = 0) ∧
    ((call cfg b now (some e)).1.last_failure_time = some now ∧
      (call cfg b now (some e)).1.last_failure_time_monotonic = some now ∧
      (call cfg b now (some e)).1.failure_count = b.failure_count + 1 ∧
      (call cfg b now (some e)).1.state =
        (if cfg.failure_threshold ≤ b.failure_count + 1 then
          CircuitState.OPEN else CircuitState.HALF_OPEN)) := by
  have hne : b.state ≠ .OPEN := by simp [hb]
  rw [call_eq_callEnd_of_not_open cfg b now none hne,
    call_eq_callEnd_of_not_open cfg b now (some e) hne]
  constructor
  · simp [callEnd, onSuccess, hb]
  · refine ⟨?_, ?_, ?_, ?_⟩ <;>
      simp only [callEnd, he, if_true, onFailure] <;>
      split <;> simp_all

/-- Concrete instantiation of the amended C6, on the trip side: threshold
3 and count still 3 from the prior trip, so the probe failure re-opens;
a successful probe closes and zeroes the counters. -/
theorem half_open_probe_outcome_witness :
    ((call ⟨3, 60, httpRetryable, "mlb_api"⟩
        ⟨.HALF_OPEN, 7, 1, 4, 1, some 2, none, 3, 3, some 2⟩ 9
        none).1.state = .CLOSED ∧
      (call ⟨3, 60, httpRetryable, "mlb_api"⟩
        ⟨.HALF_OPEN, 7, 1, 4, 1, some 2, none, 3, 3, some 2⟩ 9
        none).1.failure_count = 0 ∧
      (call ⟨3, 60, httpRetryable, "mlb_api"⟩
        ⟨.HALF_OPEN, 7, 1, 4, 1, some 2, none, 3, 3, some 2⟩ 9
        none).1.current_failure_count = 0) ∧
    ((call ⟨3, 60, httpRetryable, "mlb_api"⟩
        ⟨.HALF_OPEN, 7, 1, 4, 1, some 2, none, 3, 3, some 2⟩ 9
        (some (.requestError 5))).1.last_failure_time = some 9 ∧
      (call ⟨3, 60, httpRetryable, "mlb_api"⟩
        ⟨.HALF_OPEN, 7, 1, 4, 1, some 2, none, 3, 3, some 2⟩ 9
        (some (.requestError 5))).1.last_failure_time_monotonic = some 9 ∧
      (call ⟨3, 60, httpRetryable, "mlb_api"⟩
        ⟨.HALF_OPEN, 7, 1, 4, 1, some 2, none, 3, 3, some 2⟩ 9
        (some (.requestError 5))).1.failure_count = 3 + 1 ∧
      (call ⟨3, 60, httpRetryable, "mlb_api"⟩
        ⟨.HALF_OPEN, 7, 1, 4, 1, some 2, none, 3, 3, some 2⟩ 9
        (some (.requestError 5))).1.state = .OPEN) :=
  half_open_probe_outcome ⟨3, 60, httpRetryable, "mlb_api"⟩
    ⟨.HALF_OPEN, 7, 1, 4, 1, some 2, none, 3, 3, some 2⟩ 9
    (.requestError 5) rfl rfl

/-- Counterexample to claim C10: the invariant it relies on — HalfOpen
implies the consecutive-failure count is already ≥ threshold — fails at a
program-reachable state. Same straggler interleaving as for C6
(threshold 2): the probe enters HALF_OPEN with count 0 and
`circuit_opens = 1`, and its tracked failure at t = 11 leaves
`circuit_opens` at 1 (no increment) and the state HALF_OPEN. -/
theorem straggler_success_no_circuit_open_increment_counterexample :
    (applyEvs ⟨2, 5, httpRetryable, "mlb_api"⟩ initBreaker
      [.beginEv 0, .beginEv 1, .endEv 1 (some (.requestError 0)),
        .beginEv 2, .endEv 2 (some (.requestError 1)),
        .endEv 3 none, .beginEv 10]).state = .HALF_OPEN ∧
    ¬ ((⟨2, 5, httpRetryable, "mlb_api"⟩ :
          CircuitBreakerConfig).failure_threshold ≤
        (applyEvs ⟨2, 5, httpRetryable, "mlb_api"⟩ initBreaker
          [.beginEv 0, .beginEv 1, .endEv 1 (some (.requestError 0)),
            .beginEv 2, .endEv 2 (some (.requestError 1)),
            .endEv 3 none, .beginEv 10]).failure_count) ∧
    (applyEvs ⟨2, 5, httpRetryable, "mlb_api"⟩ initBreaker
      [.beginEv 0, .beginEv 1, .endEv 1 (some (.requestError 0)),
        .beginEv 2, .endEv 2 (some (.requestError 1)),
        .endEv 3 none, .beginEv 10]).circuit_opens = 1 ∧
    (applyEvs ⟨2, 5, httpRetryable, "mlb_api"⟩ initBreaker
      [.beginEv 0, .beginEv 1, .endEv 1 (some (.requestError 0)),
        .beginEv 2, .endEv 2 (some (.requestError 1)),
        .endEv 3 none, .beginEv 10,
        .endEv 11 (some (.requestError 2))]).circuit_opens = 1 ∧
    (applyEvs ⟨2, 5, httpRetryable, "mlb_api"⟩ initBreaker
      [.beginEv 0, .beginEv 1, .endEv 1 (some (.requestError 0)),
        .beginEv 2, .endEv 2 (some (.requestError 1)),
        .endEv 3 none, .beginEv 10,
        .endEv 11 (some (.requestError 2))]).state = .HALF_OPEN := by
  refine ⟨?_, ?_, ?_, ?_, ?_⟩ <;>
    (simp +decide [applyEvs, applyEv, callBegin, callEnd, onFailure,
      onSuccess, shouldAttemptReset, initBreaker, httpRetryable] <;>
      norm_num)

/-- Claim C10 amended: for every breaker in HALF_OPEN, a tracked failure
of the probe increments `circuit_opens` by 1 and re-enters OPEN exactly
when the incremented consecutive-failure count reaches the threshold.
The invariant "HalfOpen implies count ≥ threshold" is not maintained once
in-flight calls may complete while the breaker is OPEN (a straggler
success zeroes the count there), and when the count has been zeroed that
way the probe failure changes neither `circuit_opens` nor the HALF_OPEN
state. -/
theorem half_open_probe_failure_opens_iff (cfg : CircuitBreakerConfig)
    (b : Breaker) (now : ℚ) (e : Exc) (hb : b.state = .HALF_OPEN)
    (he : cfg.expected e = true) :
    (call cfg b now (some e)).1.circuit_opens =
      (if cfg.failure_threshold ≤ b.failure_count + 1 then
        b.circuit_opens + 1 else b.circuit_opens) ∧
    (call cfg b now (some e)).1.state =
      (if cfg.failure_threshold ≤ b.failure_count + 1 then
        CircuitState.OPEN else CircuitState.HALF_OPEN) := by
  have hne : b.state ≠ .OPEN := by simp [hb]
  rw [call_eq_callEnd_of_not_open cfg b now (some e) hne]
  constructor <;>
    simp only [callEnd, he, if_true, onFailure] <;>
    split <;> simp_all

/-- Concrete instantiation of the amended C10, on the trip side:
threshold 2 with the count still 2 from the prior trip, so the failed
probe takes `circuit_opens` from 1 to 2 and re-enters OPEN. -/
theorem half_open_probe_failure_opens_iff_witness :
    (call ⟨2, 30, httpRetryable, "http_client"⟩
      ⟨.HALF_OPEN, 9, 2, 5, 1, some 4, none, 2, 2, some 4⟩ 40
      (some (.httpStatusError 503))).1.circuit_opens = 1 + 1 ∧
    (call ⟨2, 30, httpRetryable, "http_client"⟩
      ⟨.HALF_OPEN, 9, 2, 5, 1, some 4, none, 2, 2, some 4⟩ 40
      (some (.httpStatusError 503))).1.state = .OPEN :=
  half_open_probe_failure_opens_iff ⟨2, 30, httpRetryable, "http_client"⟩
    ⟨.HALF_OPEN, 9, 2, 5, 1, some 4, none, 2, 2, some 4⟩ 40
    (.httpStatusError 503) rfl rfl

/-- When every attempt up to the remaining fuel raises a retryable
exception, the tenacity loop makes all of them and ends with a
`RetryError` wrapping the last attempt's exception. -/
theorem tenacityGo_all_fail (retryable : Exc → Bool)
    (attempts : Nat → Option Exc) :
    ∀ fuel i : Nat,
      (∀ j, j ≤ fuel → ∃ e, attempts (i + j) = some e ∧ retryable e = true) →
      ∃ e, attempts (i + fuel) = some e ∧
        tenacityGo retryable attempts i fuel =
          (.err (.retryErr e), i + fuel + 1) := by
  intro fuel
  induction fuel with
  | zero =>
    intro i h
    obtain ⟨e, he, hr⟩ := h 0 (Nat.le_refl 0)
    rw [Nat.add_zero] at he
    refine ⟨e, by simpa using he, ?_⟩
    simp [tenacityGo, he, hr]
  | succ fuel ih =>
    intro i h
    obtain ⟨e, he, hr⟩ := h 0 (Nat.zero_le _)
    rw [Nat.add_zero] at he
    have h' : ∀ j, j ≤ fuel →
        ∃ e, attempts (i + 1 + j) = some e ∧ retryable e = true := by
      intro j hj
      have := h (j + 1) (by omega)
      rwa [show i + (j + 1) = i + 1 + j by omega] at this
    obtain ⟨eL, heL, hgoL⟩ := ih (i + 1) h'
    refine ⟨eL, ?_, ?_⟩
    · rwa [show i + (fuel + 1) = i + 1 + fuel by omega]
    · simp only [tenacityGo, he, hr, if_true]
      rw [hgoL]
      simp only [Prod.mk.injEq]
      exact ⟨trivial, by omega⟩

/-- When attempt `d` succeeds and all earlier attempts raise retryable
exceptions, the tenacity loop returns after exactly `d + 1` attempts. -/
theorem tenacityGo_success (retryable : Exc → Bool)
    (attempts : Nat → Option Exc) :
    ∀ (d i fuel : Nat), d ≤ fuel → attempts (i + d) = none →
      (∀ j, j < d → ∃ e, attempts (i + j) = some e ∧ retryable e = true) →
      tenacityGo retryable attempts i fuel = (.ok, i + d + 1) := by
  intro d
  induction d with
  | zero =>
    intro i fuel _ h0 _
    rw [Nat.add_zero] at h0
    cases fuel <;> simp [tenacityGo, h0]
  | succ d ih =>
    intro i fuel hd h0 hbefore
    obtain ⟨e, he, hr⟩ := hbefore 0 (Nat.succ_pos d)
    rw [Nat.add_zero] at he
    cases fuel with
    | zero => omega
    | succ fuel =>
      simp only [tenacityGo, he, hr, if_true]
      have h0' : attempts (i + 1 + d) = none := by
        rwa [show i + (d + 1) = i + 1 + d by omega] at h0
      have hbefore' : ∀ j, j < d →
          ∃ e, attempts (i + 1 + j) = some e ∧ retryable e = true := by
        intro j hj
        have := hbefore (j + 1) (by omega)
        rwa [show i + (j + 1) = i + 1 + j by omega] at this
      rw [ih (i + 1) fuel (by omega) h0' hbefore']
      simp only [Prod.mk.injEq]
      exact ⟨trivial, by omega⟩

/-- A non-retryable first attempt ends the tenacity loop immediately,
re-raising the exception unchanged after exactly one attempt. -/
theorem tenacityGo_nonretryable (retryable : Exc → Bool)
    (attempts : Nat → Option Exc) (e : Exc) (h0 : attempts 0 = some e)
    (he : retryable e = false) :
    ∀ fuel : Nat, tenacityGo retryable attempts 0 fuel = (.err e, 1) := by
  intro fuel
  cases fuel <;> simp [tenacityGo, h0, he]

/-- Claim C4 amended: in `_resilient_request`'s composition the breaker
wraps the tenacity-decorated `_make_request` (whose retryable tuple equals
the breaker's `expected_exception` tuple). If all `M ≥ 1` attempts raise
retryable exceptions, the final exception reaches the breaker wrapped in
`tenacity.RetryError` — not unchanged — and `RetryError` is not a tracked
type, so the breaker records NO tracked failure for the whole sequence
(only `total_requests` moves; the intermediate attempts never touch the
failure count either); a sequence that fails then succeeds within budget
is recorded as exactly one success. -/
theorem retry_exhaustion_wrapped_untracked (cfg : CircuitBreakerConfig)
    (hexp : cfg.expected = httpRetryable) (b : Breaker) (now : ℚ)
    (M : Nat) (hM : 1 ≤ M) (attempts : Nat → Option Exc)
    (hb : b.state = .CLOSED) :
    (∀ eL, (∀ j, j < M → ∃ e, attempts j = some e ∧ httpRetryable e = true) →
      attempts (M - 1) = some eL →
      resilientRequest cfg b now httpRetryable M attempts =
        ({ b with total_requests := b.total_requests + 1 },
          .raised (.retryErr eL), M)) ∧
    (∀ k, k < M → attempts k = none →
      (∀ j, j < k → ∃ e, attempts j = some e ∧ httpRetryable e = true) →
      resilientRequest cfg b now httpRetryable M attempts =
        ({ b with
            total_requests := b.total_requests + 1
            successful_requests := b.successful_requests + 1
            last_success_time := some now
            failure_count := 0
            current_failure_count := 0 }, .returned, k + 1)) := by
  have hbeg : callBegin cfg b now =
      ({ b with total_requests := b.total_requests + 1 }, .proceed) := by
    simp [callBegin, hb]
  constructor
  · intro eL hall hlast
    obtain ⟨e, he, hgo⟩ := tenacityGo_all_fail httpRetryable attempts
      (M - 1) 0 (by
        intro j hj
        simpa using hall j (by omega))
    rw [Nat.zero_add] at he hgo
    rw [hlast] at he
    obtain rfl : e = eL := by injection he with h; exact h.symm
    simp only [resilientRequest, hbeg, tenacityRetry, hgo]
    have hexp' : cfg.expected (.retryErr e) = false := by
      rw [hexp]; rfl
    simp only [callEnd, hexp', Bool.false_eq_true, if_false]
    rw [show M - 1 + 1 = M by omega]
  · intro k hk hsucc hbefore
    have hgo := tenacityGo_success httpRetryable attempts k 0 (M - 1)
      (by omega) (by simpa using hsucc) (by
        intro j hj
        simpa using hbefore j hj)
    rw [Nat.zero_add] at hgo
    simp only [resilientRequest, hbeg, tenacityRetry, hgo]
    simp only [callEnd, onSuccess]
    have hnot : ({ b with total_requests := b.total_requests + 1 } :
        Breaker).state ≠ CircuitState.HALF_OPEN := by
      simp [hb]
    simp [hnot]

/-- Concrete instantiation of the amended C4: three retryable failures
with `maxAttempts = 3` reach the breaker as a `RetryError` wrapping the
last `httpx.RequestError`; the breaker's failure accounting is untouched. -/
theorem retry_exhaustion_wrapped_untracked_witness :
    resilientRequest ⟨5, 60, httpRetryable, "http_client"⟩ initBreaker 0
        httpRetryable 3 (fun j => some (.requestError j)) =
      ({ initBreaker with total_requests := 1 },
        .raised (.retryErr (.requestError 2)), 3) :=
  (retry_exhaustion_wrapped_untracked ⟨5, 60, httpRetryable, "http_client"⟩
    rfl initBreaker 0 3 (by decide) (fun j => some (.requestError j)) rfl).1
    (.requestError 2) (fun j _ => ⟨.requestError j, rfl, rfl⟩) rfl

/-- Counterexample to claim C4 as stated: with `maxAttempts = 3` and every
attempt raising the retryable `httpx.RequestError`, the exception that
reaches the breaker is `RetryError(RequestError)` — not the final
exception unchanged — and the breaker records zero tracked failures for
the sequence (`failure_count` and `failed_requests` both stay 0), not
exactly one. -/
theorem retry_final_exception_wrapped_counterexample :
    (resilientRequest ⟨5, 60, httpRetryable, "http_client"⟩ initBreaker 0
        httpRetryable 3 (fun _ => some (.requestError 0))).2.1 =
      .raised (.retryErr (.requestError 0)) ∧
    (resilientRequest ⟨5, 60, httpRetryable, "http_client"⟩ initBreaker 0
        httpRetryable 3 (fun _ => some (.requestError 0))).2.1 ≠
      .raised (.requestError 0) ∧
    (resilientRequest ⟨5, 60, httpRetryable, "http_client"⟩ initBreaker 0
        httpRetryable 3 (fun _ => some (.requestError 0))).1.failure_count
      = 0 ∧
    (resilientRequest ⟨5, 60, httpRetryable, "http_client"⟩ initBreaker 0
        httpRetryable 3 (fun _ => some (.requestError 0))).1.failed_requests
      = 0 := by
  refine ⟨?_, ?_, ?_, ?_⟩ <;>
    simp +decide [resilientRequest, tenacityRetry, tenacityGo, callBegin,
      callEnd, initBreaker, httpRetryable]

/-- Claim C5 amended: an exception outside the retryable tuple propagates
to the caller immediately and unchanged after exactly one attempt — but
because the breaker's `expected_exception` tuple equals the retryable
tuple, it is untracked: it contributes nothing to the consecutive-failure
count (the breaker records only `total_requests`). In this code a
4xx-class response is NOT such an exception: `raise_for_status` raises
`httpx.HTTPStatusError`, which is retryable and tracked. -/
theorem nonretryable_immediate_untracked (cfg : CircuitBreakerConfig)
    (hexp : cfg.expected = httpRetryable) (b : Breaker) (now : ℚ)
    (M : Nat) (attempts : Nat → Option Exc) (e : Exc)
    (hb : b.state = .CLOSED) (he : httpRetryable e = false)
    (h0 : attempts 0 = some e) :
    resilientRequest cfg b now httpRetryable M attempts =
      ({ b with total_requests := b.total_requests + 1 }, .raised e, 1) := by
  have hbeg : callBegin cfg b now =
      ({ b with total_requests := b.total_requests + 1 }, .proceed) := by
    simp [callBegin, hb]
  have hgo := tenacityGo_nonretryable httpRetryable attempts e h0 he (M - 1)
  simp only [resilientRequest, hbeg, tenacityRetry, hgo]
  have hexp' : cfg.expected e = false := by rw [hexp]; exact he
  simp [callEnd, hexp']

/-- Concrete instantiation of the amended C5: an unrelated exception type
(`Exc.other 7`, e.g. a `ValueError`) propagates unchanged after one
attempt and leaves the breaker's failure accounting untouched. -/
theorem nonretryable_immediate_untracked_witness :
    resilientRequest ⟨5, 60, httpRetryable, "http_client"⟩ initBreaker 0
        httpRetryable 3 (fun _ => some (.other 7)) =
      ({ initBreaker with total_requests := 1 }, .raised (.other 7), 1) :=
  nonretryable_immediate_untracked ⟨5, 60, httpRetryable, "http_client"⟩
    rfl initBreaker 0 3 (fun _ => some (.other 7)) (.other 7) rfl rfl rfl

/-- Counterexample to claim C5 as stated: a non-retryable exception
(`Exc.other 7`) does propagate on first occurrence (one attempt), but its
contribution to the breaker's consecutive-failure count is zero, not
"exactly once"; and the claim's example of a non-retryable failure, a
4xx-class client error, actually raises `httpx.HTTPStatusError`, which
this code retries to exhaustion (3 attempts) and then also never counts. -/
theorem nonretryable_counts_zero_counterexample :
    (resilientRequest ⟨5, 60, httpRetryable, "http_client"⟩ initBreaker 0
        httpRetryable 3 (fun _ => some (.other 7))).2.2 = 1 ∧
    (resilientRequest ⟨5, 60, httpRetryable, "http_client"⟩ initBreaker 0
        httpRetryable 3 (fun _ => some (.other 7))).1.failure_count = 0 ∧
    ¬ ((resilientRequest ⟨5, 60, httpRetryable, "http_client"⟩ initBreaker 0
        httpRetryable 3 (fun _ => some (.other 7))).1.failure_count = 1) ∧
    (resilientRequest ⟨5, 60, httpRetryable, "http_client"⟩ initBreaker 0
        httpRetryable 3 (fun _ => some (.httpStatusError 404))).2.2 = 3 ∧
    (resilientRequest ⟨5, 60, httpRetryable, "http_client"⟩ initBreaker 0
        httpRetryable 3
          (fun _ => some (.httpStatusError 404))).1.failure_count = 0 := by
  refine ⟨?_, ?_, ?_, ?_, ?_⟩ <;>
    simp +decide [resilientRequest, tenacityRetry, tenacityGo, callBegin,
      callEnd, initBreaker, httpRetryable]

/-- Claim C7: `acquire` refines the spec's description exactly — refill
`tokens` to `min(maxRequests, tokens + (now - lastRefill) * maxRequests /
windowSeconds)` and set `lastRefill := now`, then consume one token and
return true when the refilled balance is at least 1, else return false
with the balance untouched. -/
theorem acquire_matches_spec (s : RateLimiter) (now : ℚ) :
    RateLimiter.acquire s now = acquireSpec s now := by
  simp only [RateLimiter.acquire, acquireSpec, refillSpec, mul_div_assoc]

/-- Claim C8: token balance stays within `[0, maxRequests]`: it holds for
a freshly constructed limiter and is preserved by `acquire` whenever the
constructor arguments are sensible (`maxRequests ≥ 0`, `windowSeconds >
0`) and the elapsed time since the last refill is non-negative. -/
theorem acquire_preserves_token_bounds (s : RateLimiter) (now : ℚ)
    (hmax : 0 ≤ s.max_requests) (hwin : 0 < s.time_window)
    (h0 : 0 ≤ s.tokens) (h1 : s.tokens ≤ (s.max_requests : ℚ))
    (hel : s.last_refill ≤ now) :
    (0 ≤ ((RateLimiter.acquire s now).1).tokens ∧
      ((RateLimiter.acquire s now).1).tokens ≤ (s.max_requests : ℚ)) ∧
    ∀ (m w : ℤ) (t0 : ℚ), 0 ≤ m →
      0 ≤ (RateLimiter.init m w t0).tokens ∧
      (RateLimiter.init m w t0).tokens ≤
        ((RateLimiter.init m w t0).max_requests : ℚ) := by
  have hM : (0 : ℚ) ≤ (s.max_requests : ℚ) := by exact_mod_cast hmax
  have hW : (0 : ℚ) < (s.time_window : ℚ) := by exact_mod_cast hwin
  have hadd : 0 ≤ (now - s.last_refill) *
      ((s.max_requests : ℚ) / (s.time_window : ℚ)) :=
    mul_nonneg (by linarith) (div_nonneg hM (le_of_lt hW))
  have htks_le : min ((s.max_requests : ℚ)) (s.tokens +
      (now - s.last_refill) * ((s.max_requests : ℚ) / (s.time_window : ℚ)))
      ≤ (s.max_requests : ℚ) := min_le_left _ _
  have htks_nonneg : 0 ≤ min ((s.max_requests : ℚ)) (s.tokens +
      (now - s.last_refill) *
        ((s.max_requests : ℚ) / (s.time_window : ℚ))) :=
    le_min hM (by linarith)
  constructor
  · simp only [RateLimiter.acquire]
    split_ifs with h
    · dsimp only
      constructor <;> linarith
    · exact ⟨htks_nonneg, htks_le⟩
  · intro m w t0 hm
    constructor
    · show (0 : ℚ) ≤ ((m : ℚ))
      exact_mod_cast hm
    · exact le_refl _

/-- Concrete instantiation of C8: a limiter with capacity 10 over a
60-second window, holding 5 tokens with 30 seconds elapsed, keeps its
balance within `[0, 10]` across an `acquire`. -/
theorem acquire_preserves_token_bounds_witness :
    (0 ≤ ((RateLimiter.acquire ⟨10, 60, 5, 0⟩ 30).1).tokens ∧
      ((RateLimiter.acquire ⟨10, 60, 5, 0⟩ 30).1).tokens ≤
        (((⟨10, 60, 5, 0⟩ : RateLimiter).max_requests : ℤ) : ℚ)) ∧
    ∀ (m w : ℤ) (t0 : ℚ), 0 ≤ m →
      0 ≤ (RateLimiter.init m w t0).tokens ∧
      (RateLimiter.init m w t0).tokens ≤
        ((RateLimiter.init m w t0).max_requests : ℚ) :=
  acquire_preserves_token_bounds ⟨10, 60, 5, 0⟩ 30 (by decide) (by decide)
    (by norm_num) (by norm_num) (by norm_num)

/-- `callEnd` leaves `total_requests` alone and moves
`successful_requests + failed_requests` up by at most one. -/
theorem callEnd_stats (cfg : CircuitBreakerConfig) (b : Breaker) (now : ℚ)
    (o : Option Exc) :
    (callEnd cfg b now o).1.total_requests = b.total_requests ∧
    (callEnd cfg b now o).1.successful_requests +
        (callEnd cfg b now o).1.failed_requests ≤
      b.successful_requests + b.failed_requests + 1 := by
  rcases o with _ | e
  · constructor <;> simp only [callEnd, onSuccess] <;> split <;> simp <;> omega
  · by_cases he : cfg.expected e = true
    · constructor <;> simp only [callEnd, onFailure, he, if_true] <;>
        split <;> simp <;> omega
    · simp [callEnd, he]

/-- A completed call increments `total_requests` by exactly one and the
sum of `successful_requests` and `failed_requests` by at most one. -/
theorem call_stats (cfg : CircuitBreakerConfig) (b : Breaker) (now : ℚ)
    (o : Option Exc) :
    (call cfg b now o).1.total_requests = b.total_requests + 1 ∧
    (call cfg b now o).1.successful_requests +
        (call cfg b now o).1.failed_requests ≤
      b.successful_requests + b.failed_requests + 1 := by
  rcases hs : b.state with _ | _ | _
  · rw [call_eq_callEnd_of_not_open cfg b now o (by simp [hs])]
    simpa using callEnd_stats cfg
      { b with total_requests := b.total_requests + 1 } now o
  · cases hr : shouldAttemptReset cfg b now
    · rw [call_eq_of_open_noreset cfg b now o hs hr]
      simp
    · rw [call_eq_of_open_reset cfg b now o hs hr]
      simpa using callEnd_stats cfg
        { b with
            total_requests := b.total_requests + 1
            state := .HALF_OPEN } now o
  · rw [call_eq_callEnd_of_not_open cfg b now o (by simp [hs])]
    simpa using callEnd_stats cfg
      { b with total_requests := b.total_requests + 1 } now o

/-- `callEnd` never produces a rejection (rejections only come from the
pre-invocation phase). -/
theorem callEnd_snd_ne_rejected (cfg : CircuitBreakerConfig) (b : Breaker)
    (now : ℚ) (o : Option Exc) (n : String) (lf : Option ℚ) :
    (callEnd cfg b now o).2 ≠ .rejected n lf := by
  rcases o with _ | e
  · simp [callEnd]
  · by_cases he : cfg.expected e = true <;> simp [callEnd, he]

/-- Claim C9: `successfulRequests + failedRequests ≤ totalRequests` holds
for a fresh breaker and is preserved by every operation (completed call
with any outcome, manual reset; `get_stats` does not mutate); moreover a
rejected call and an untracked-exception call increment neither
`successfulRequests` nor `failedRequests` while still incrementing
`totalRequests`. -/
theorem stats_requests_invariant (cfg : CircuitBreakerConfig) :
    statsInv initBreaker ∧
    (∀ (b : Breaker) (op : BreakerOp),
      statsInv b → statsInv (applyOp cfg b op)) ∧
    (∀ (b : Breaker) (now : ℚ) (o : Option Exc) (n : String)
      (lf : Option ℚ), (call cfg b now o).2 = .rejected n lf →
      (call cfg b now o).1.successful_requests = b.successful_requests ∧
      (call cfg b now o).1.failed_requests = b.failed_requests ∧
      (call cfg b now o).1.total_requests = b.total_requests + 1) ∧
    (∀ (b : Breaker) (now : ℚ) (e : Exc), cfg.expected e = false →
      (call cfg b now (some e)).1.successful_requests =
        b.successful_requests ∧
      (call cfg b now (some e)).1.failed_requests = b.failed_requests ∧
      (call cfg b now (some e)).1.total_requests = b.total_requests + 1) := by
  refine ⟨by decide, ?_, ?_, ?_⟩
  · intro b op h
    cases op with
    | call now o =>
      have := call_stats cfg b now o
      unfold statsInv at h ⊢
      simp only [applyOp]
      omega
    | reset =>
      simpa [applyOp, breakerReset] using h
  · intro b now o n lf hrej
    rcases hs : b.state with _ | _ | _
    · rw [call_eq_callEnd_of_not_open cfg b now o (by simp [hs])] at hrej
      exact absurd hrej (callEnd_snd_ne_rejected cfg _ now o n lf)
    · cases hr : shouldAttemptReset cfg b now
      · rw [call_eq_of_open_noreset cfg b now o hs hr]
        simp
      · rw [call_eq_of_open_reset cfg b now o hs hr] at hrej
        exact absurd hrej (callEnd_snd_ne_rejected cfg _ now o n lf)
    · rw [call_eq_callEnd_of_not_open cfg b now o (by simp [hs])] at hrej
      exact absurd hrej (callEnd_snd_ne_rejected cfg _ now o n lf)
  · intro b now e he
    rcases hs : b.state with _ | _ | _
    · rw [call_eq_callEnd_of_not_open cfg b now (some e) (by simp [hs])]
      simp [callEnd, he]
    · cases hr : shouldAttemptReset cfg b now
      · rw [call_eq_of_open_noreset cfg b now (some e) hs hr]
        simp
      · rw [call_eq_of_open_reset cfg b now (some e) hs hr]
        simp [callEnd, he]
    · rw [call_eq_callEnd_of_not_open cfg b now (some e) (by simp [hs])]
      simp [callEnd, he]

/-- Concrete instantiation of C9: the invariant survives a successful
call; a rejection while OPEN moves only `total_requests`; and an
untracked exception (`Exc.other 3`) moves only `total_requests`. -/
theorem stats_requests_invariant_witness :
    statsInv (applyOp ⟨5, 60, httpRetryable, "http_client"⟩ initBreaker
      (.call 0 none)) ∧
    ((call ⟨5, 60, httpRetryable, "http_client"⟩
        ⟨.OPEN, 5, 2, 3, 1, some 100, none, 3, 3, some 100⟩ 110
        (some (.requestError 0))).1.successful_requests = 2 ∧
      (call ⟨5, 60, httpRetryable, "http_client"⟩
        ⟨.OPEN, 5, 2, 3, 1, some 100, none, 3, 3, some 100⟩ 110
        (some (.requestError 0))).1.failed_requests = 3 ∧
      (call ⟨5, 60, httpRetryable, "http_client"⟩
        ⟨.OPEN, 5, 2, 3, 1, some 100, none, 3, 3, some 100⟩ 110
        (some (.requestError 0))).1.total_requests = 5 + 1) ∧
    ((call ⟨5, 60, httpRetryable, "http_client"⟩ initBreaker 0
        (some (.other 3))).1.successful_requests = 0 ∧
      (call ⟨5, 60, httpRetryable, "http_client"⟩ initBreaker 0
        (some (.other 3))).1.failed_requests = 0 ∧
      (call ⟨5, 60, httpRetryable, "http_client"⟩ initBreaker 0
        (some (.other 3))).1.total_requests = 0 + 1) :=
  ⟨(stats_requests_invariant ⟨5, 60, httpRetryable, "http_client"⟩).2.1
      initBreaker (.call 0 none) (by decide),
    (stats_requests_invariant ⟨5, 60, httpRetryable, "http_client"⟩).2.2.1
      ⟨.OPEN, 5, 2, 3, 1, some 100, none, 3, 3, some 100⟩ 110
      (some (.requestError 0)) "http_client" (some 100)
      (by
        rw [call_open_rejected ⟨5, 60, httpRetryable, "http_client"⟩
          ⟨.OPEN, 5, 2, 3, 1, some 100, none, 3, 3, some 100⟩ 110
          (some (.requestError 0)) 100 rfl rfl (by norm_num)]),
    (stats_requests_invariant ⟨5, 60, httpRetryable, "http_client"⟩).2.2.2
      initBreaker 0 (.other 3) rfl⟩

end NetworkResilience
